import Mathlib

/-!
Verification of the cyli CLI tool (a Cypress test picker/runner) against its
specification.  The Python sources are shallowly embedded: pure decision
logic is translated into executable Lean definitions, the filesystem is an
explicit `FS` record of oracle functions, and fallible Python code (raised
`ValueError`s) is rendered with `Except`.  Paths are plain strings; glob
matching of `*.cy.<ext>` name patterns is rendered as a suffix test on the
path's character list.
-/

/-! ### Configuration model (src/cyli/config.py) -/

/-- Script categories with their key → script-name mappings, embedding the
Python nested dict `dict[str, dict[str, str]]` as an association list. -/
abbrev Scripts := List (String × List (String × String))

/-- `PACKAGE_MANAGERS` table from config.py: name ↦ (command, run prefix).
yarn's run prefix is the empty string. -/
def PACKAGE_MANAGERS : List (String × String × String) :=
  [("npm", ("npm", "run")),
   ("yarn", ("yarn", "")),
   ("pnpm", ("pnpm", "run")),
   ("bun", ("bun", "run"))]

/-- The default `scripts` mapping of `ScriptRunnerConfig`. -/
def defaultScripts : Scripts :=
  [("test", [("component", "coverage:component"), ("e2e", "coverage:e2e")])]

/-- `ScriptRunnerConfig` dataclass: command, run prefix (field `run_prefix`
in the source; `runPfx` here), and the scripts mapping. -/
structure ScriptRunnerConfig where
  command : String := "npm"
  runPfx : String := "run"
  scripts : Scripts := defaultScripts
deriving DecidableEq

/-- `ScriptRunnerConfig.for_package_manager`: look the name up in
`PACKAGE_MANAGERS` (unknown names raise `ValueError`, rendered as `.error`)
and take the given scripts unless they are falsy (`scripts or cls().scripts`
in Python treats both `None` and an empty dict as absent). -/
def ScriptRunnerConfig.for_package_manager (name : String)
    (scripts : Option Scripts) : Except String ScriptRunnerConfig :=
  match List.lookup name PACKAGE_MANAGERS with
  | none => .error ("Unknown package manager: " ++ name)
  | some pm =>
      .ok { command := pm.1
            runPfx := pm.2
            scripts := match scripts with
                       | some s => if s.isEmpty then defaultScripts else s
                       | none => defaultScripts }

/-- `ScriptRunnerConfig.get_command`: unknown category and unknown (or
falsy, i.e. empty-string) script key raise `ValueError`; otherwise the
command is `[command, runPfx, script]`, with the run prefix dropped
entirely when it is the empty string (Python `if self.run_prefix:`). -/
def ScriptRunnerConfig.get_command (c : ScriptRunnerConfig)
    (category script_key : String) : Except String (List String) :=
  match List.lookup category c.scripts with
  | none => .error ("Unknown category: " ++ category)
  | some category_scripts =>
      match List.lookup script_key category_scripts with
      | none => .error ("Unknown script " ++ script_key)
      | some script =>
          if script = "" then .error ("Unknown script " ++ script_key)
          else if c.runPfx = "" then .ok [c.command, script]
          else .ok [c.command, c.runPfx, script]

/-- `ScriptRunnerConfig.get_test_command`: `get_command` specialised to the
`test` category. -/
def ScriptRunnerConfig.get_test_command (c : ScriptRunnerConfig)
    (test_type : String) : Except String (List String) :=
  c.get_command "test" test_type

/-- `Config` dataclass wrapping a `ScriptRunnerConfig`. -/
structure Config where
  script_runner : ScriptRunnerConfig := {}
deriving DecidableEq

/-- The `script_runner` entry of a parsed JSON config document: each JSON
key is an optional field (`package_manager`, `command`, `run_prefix`
(here `run_pfx`), `scripts`). -/
structure RunnerDict where
  package_manager : Option String := none
  command : Option String := none
  run_pfx : Option String := none
  scripts : Option Scripts := none
deriving DecidableEq

/-- A parsed JSON config document: optional `script_runner` entry. -/
structure ConfigDict where
  script_runner : Option RunnerDict := none
deriving DecidableEq

/-- `Config.from_dict`: when the `package_manager` shorthand is present,
defer to the preset constructor; otherwise read `command`, `run_prefix`
and `scripts` directly with the dataclass defaults filling gaps. -/
def Config.from_dict (data : ConfigDict) : Except String Config :=
  let runner_data := data.script_runner.getD {}
  match runner_data.package_manager with
  | some pm_name =>
      (ScriptRunnerConfig.for_package_manager pm_name runner_data.scripts).map
        fun rc => { script_runner := rc }
  | none =>
      .ok { script_runner :=
              { command := runner_data.command.getD "npm"
                runPfx := runner_data.run_pfx.getD "run"
                scripts := runner_data.scripts.getD defaultScripts } }

/-- `Config.to_dict`: emit `command`, `run_prefix` and `scripts` under the
`script_runner` key (never the `package_manager` shorthand). -/
def Config.to_dict (c : Config) : ConfigDict :=
  { script_runner := some
      { package_manager := none
        command := some c.script_runner.command
        run_pfx := some c.script_runner.runPfx
        scripts := some c.script_runner.scripts } }

/-- `load_config` decision logic: the upward search for `cyli.json` and the
JSON parse are external; its input here is the parsed document when a file
was given or found, `none` otherwise.  With no document the built-in
default `Config()` is returned. -/
def load_config (found : Option ConfigDict) : Except String Config :=
  match found with
  | none => .ok {}
  | some data => Config.from_dict data

/-! ### Filesystem abstraction and test discovery (src/cyli/core/cypress.py) -/

/-- Oracle view of the project filesystem: the result of
`find_project_root` (utils/files.py, an upward marker search), a directory
existence test (`p.exists() and p.is_dir()`), and for each directory the
recursive file listing that a `**/…` glob scan enumerates. -/
structure FS where
  projectRoot : Option String
  isDir : String → Bool
  treeFiles : String → List String

/-- `TEST_FOLDERS` table from cypress.py. -/
def TEST_FOLDERS : List (String × String) := [("e2e", "e2e"), ("component", "component")]

/-- `find_cypress_folder`: the project root's `cypress` subdirectory, if the
root is found and the subdirectory exists. -/
def find_cypress_folder (fs : FS) : Option String :=
  match fs.projectRoot with
  | none => none
  | some root =>
      let p := root ++ "/cypress"
      if fs.isDir p then some p else none

/-- `find_test_folder`: unknown test types raise `ValueError`; otherwise the
category's conventional subfolder of the Cypress folder, when present. -/
def find_test_folder (fs : FS) (test_type : String) :
    Except String (Option String) :=
  match List.lookup test_type TEST_FOLDERS with
  | none => .error ("Unknown test type: " ++ test_type)
  | some sub =>
      match find_cypress_folder fs with
      | none => .ok none
      | some cypress_folder =>
          let p := cypress_folder ++ "/" ++ sub
          if fs.isDir p then .ok (some p) else .ok none

/-- `find_src_folder`: the project root's `src` subdirectory, if present. -/
def find_src_folder (fs : FS) : Option String :=
  match fs.projectRoot with
  | none => none
  | some root =>
      let p := root ++ "/src"
      if fs.isDir p then some p else none

/-- Glob name pattern `*.cy.<ext>` as a test on a file path: the path ends
with `.cy.<ext>` (a dotless extension suffix matches the path exactly when
it matches the file name). -/
def matchesExt (ext : String) (path : String) : Bool :=
  (String.append ".cy." ext).data.isSuffixOf path.data

/-- The manual brace expansion of `list_test_files`: one glob pass per
extension, in the source's fixed order ts, js, tsx, jsx, concatenated. -/
def globFiles (fs : FS) (folder : String) : List String :=
  (fs.treeFiles folder).filter (matchesExt "ts")
    ++ (fs.treeFiles folder).filter (matchesExt "js")
    ++ (fs.treeFiles folder).filter (matchesExt "tsx")
    ++ (fs.treeFiles folder).filter (matchesExt "jsx")

/-- Non-strict lexicographic order on codepoint sequences. -/
def lexLe : List Nat → List Nat → Bool
  | [], _ => true
  | _ :: _, [] => false
  | a :: as, b :: bs =>
      if a < b then true else if b < a then false else lexLe as bs

/-- The ordering the SPEC claims for discovery output: plain codepoint-wise
comparison of the two full path strings.  Kept separate from the ordering
the program actually uses (`pathLe` below); the two disagree on nested
paths. -/
def strLe (a b : String) : Bool :=
  lexLe (a.data.map Char.toNat) (b.data.map Char.toNat)

/-- `strLe` as a decidable relation. -/
def strLeP (a b : String) : Prop := strLe a b = true

instance : DecidableRel strLeP := fun _ _ => inferInstanceAs (Decidable (_ = true))

/-- Strict lexicographic order on codepoint sequences: Python's `<` on
strings. -/
def lexLt : List Nat → List Nat → Bool
  | [], [] => false
  | [], _ :: _ => true
  | _ :: _, [] => false
  | a :: as, b :: bs =>
      if a < b then true else if b < a then false else lexLt as bs

/-- A path component as its codepoint sequence. -/
def partCodes (p : List Char) : List Nat := p.map Char.toNat

/-- Python string `<` on two path components. -/
def partLt (a b : List Char) : Bool := lexLt (partCodes a) (partCodes b)

/-- Python tuple/list `<=` on component sequences: lexicographic with
components compared by `partLt`. -/
def partsLe : List (List Char) → List (List Char) → Bool
  | [], _ => true
  | _ :: _, [] => false
  | a :: as, b :: bs =>
      if partLt a b then true else if partLt b a then false else partsLe as bs

/-- Split a path's characters into its slash-separated components.  For an
absolute POSIX path this renders `PurePath._parts`'s leading `/` anchor as
a leading empty component — an order-preserving relabelling, since all
paths compared within one scan share the same anchor. -/
def splitParts : List Char → List (List Char)
  | [] => [[]]
  | c :: cs =>
      if c = '/' then [] :: splitParts cs
      else
        match splitParts cs with
        | [] => [[c]]
        | p :: ps => (c :: p) :: ps

/-- The order `sorted()` actually applies to `Path` values (pathlib
`PurePath.__lt__`, which compares `_cparts`, the component list —
casefolding is the identity on POSIX): component-wise lexicographic
comparison of the two paths. -/
def pathLe (a b : String) : Bool := partsLe (splitParts a.data) (splitParts b.data)

/-- `pathLe` as a decidable relation. -/
def pathLeP (a b : String) : Prop := pathLe a b = true

instance : DecidableRel pathLeP := fun _ _ => inferInstanceAs (Decidable (_ = true))

/-- Python's `sorted` on `Path` values: sort ascending by `pathLeP`. -/
def sortStrings (l : List String) : List String := l.insertionSort pathLeP

/-- `list_test_files`: resolve the test folder (propagating the
unknown-category error); an absent folder yields `[]`; otherwise the four
per-extension glob passes, sorted. -/
def list_test_files (fs : FS) (test_type : String) : Except String (List String) :=
  match find_test_folder fs test_type with
  | .error e => .error e
  | .ok none => .ok []
  | .ok (some folder) => .ok (sortStrings (globFiles fs folder))

/-- `list_src_test_files`: scan the `src` folder for `*.cy.ts`, sorted; an
absent folder yields `[]`. -/
def list_src_test_files (fs : FS) : List String :=
  match find_src_folder fs with
  | none => []
  | some src_folder =>
      sortStrings ((fs.treeFiles src_folder).filter (matchesExt "ts"))

/-! ### Test command layer (src/cyli/commands/test.py) -/

/-- `get_test_files`: Cypress-folder files first, then (for `component`
only) the src-folder files, concatenated without re-sorting. -/
def get_test_files (fs : FS) (test_type : String) : Except String (List String) :=
  match list_test_files fs test_type with
  | .error e => .error e
  | .ok cypress_tests =>
      .ok (cypress_tests ++ (if test_type = "component" then list_src_test_files fs else []))

/-- Python `" ".join`. -/
def joinSp : List String → String
  | [] => ""
  | [a] => a
  | a :: rest => a ++ " " ++ joinSp rest

/-- The command built in `TestRunnerApp.run_test`:
`cmd = self.base_cmd + ["--", "--", "--spec", test_file]`; this exact list
is what `_run_command` passes to `create_subprocess_exec`. -/
def buildCommand (base_cmd : List String) (test_file : String) : List String :=
  base_cmd ++ ["--", "--", "--spec", test_file]

/-- The string printed by the `--dry-run` branch of the `test` command:
`" ".join(base_cmd) + ' -- -- --spec "<test_file>"'` — a fixed, quoted
placeholder stands in for the file path. -/
def dryRunCommandString (base_cmd : List String) : String :=
  joinSp base_cmd ++ " -- -- --spec \"<test_file>\""

/-- The string `run_test` displays before executing a command `cmd`:
`" ".join(cmd[:-1]) + f-string quoting the final element`. -/
def runTestCommandString (cmd : List String) : String :=
  joinSp cmd.dropLast ++ " \"" ++ cmd.getLastD "" ++ "\""

/-- Outcome labels for the runner app's status line: ready, running a file,
or the pass/fail report that invites selecting another test. -/
inductive RunStatus where
  | ready
  | running (file : String)
  | passed (file : String)
  | failed (file : String)
deriving DecidableEq

/-- Phases of the `TestRunnerApp` session.  `askContinue` is the
continue-prompt phase the specification predicts after a failure; the
embedded step function never produces it, and `exited` is reached only
through the quit action. -/
inductive RunnerPhase where
  | awaiting (st : RunStatus)
  | running (file : String)
  | askContinue (rc : Int)
  | exited (code : Int)
deriving DecidableEq

/-- Events driving the `TestRunnerApp`: a file is selected in the option
list, the spawned child process exits with a return code, or the user
quits (escape / q). -/
inductive RunnerEvent where
  | selectFile (file : String)
  | processExited (rc : Int)
  | quit
deriving DecidableEq

/-- Step function of the `TestRunnerApp`: selecting a file starts a run
(`run_test`); `_run_command` reports pass or fail in the status bar and
returns to awaiting a selection either way; `action_quit` exits the app,
after which the click command returns normally, so the process exit code
is 0. -/
def runnerStep : RunnerPhase → RunnerEvent → RunnerPhase
  | _, .selectFile f => .running f
  | .running f, .processExited rc =>
      if rc = 0 then .awaiting (.passed f) else .awaiting (.failed f)
  | s, .processExited _ => s
  | _, .quit => .exited 0

/-- The option declarations on the `test` click command, one inner list per
decorator. -/
def testCommandOptions : List (List String) :=
  [["--type", "-t"], ["--dry-run"], ["--list-only", "-l"]]

/-- Result of the `test` command body: a `SystemExit`/error exit with a
code, the list-only printout, the dry-run printout, or the launch of the
interactive runner app (the only path that can spawn a child process). -/
inductive TestOutcome where
  | exitWith (code : Int)
  | listed (files : List String)
  | dryRunShown (cmdStr : String)
  | launchedRunner (files : List String) (base_cmd : List String)

/-- The `test` command body.  The interactive type picker is the external
`selector`, mapping the offered category names to the chosen one or to
`none` on cancellation.  Uncaught `ValueError`s from discovery or command
lookup terminate the process with exit code 1. -/
def testCommand (config : Config) (cli_type : Option String)
    (dry_run list_only : Bool) (selector : List String → Option String)
    (fs : FS) : TestOutcome :=
  let test_scripts := (List.lookup "test" config.script_runner.scripts).getD []
  if test_scripts.isEmpty then .exitWith 1
  else
    let available_types := test_scripts.map (·.1)
    match (match cli_type with
           | none => selector available_types
           | some t => some t) with
    | none => .exitWith 0
    | some test_type =>
        if (List.lookup test_type test_scripts).isNone then .exitWith 1
        else
          match get_test_files fs test_type with
          | .error _ => .exitWith 1
          | .ok test_files =>
              if list_only then .listed test_files
              else if test_files.isEmpty then .exitWith 1
              else
                match config.script_runner.get_test_command test_type with
                | .error _ => .exitWith 1
                | .ok base_cmd =>
                    if dry_run then .dryRunShown (dryRunCommandString base_cmd)
                    else .launchedRunner test_files base_cmd

/-- A sample project: root `/r`, every directory present, and every
directory scan listing the same two spec files (deliberately unsorted). -/
def fsSample : FS :=
  ⟨some "/r", fun _ => true,
   fun _ => ["/r/cypress/e2e/b.cy.ts", "/r/cypress/e2e/a.cy.js"]⟩

/-- A project whose e2e folder holds `a.b.cy.ts` beside a subdirectory `a`
holding `x.cy.ts`: the part-wise `Path` order and the full-string codepoint
order disagree on this pair. -/
def fsNested : FS :=
  ⟨some "/r", fun _ => true,
   fun _ => ["/r/cypress/e2e/a.b.cy.ts", "/r/cypress/e2e/a/x.cy.ts"]⟩

/-- The spec's aggregation scenario: `cypress/component` holds `a.cy.ts`
and `b.cy.js`, `src` holds `c.cy.ts`. -/
def fsScenario : FS :=
  ⟨some "/p", fun _ => true,
   fun p =>
     if p = "/p/cypress/component" then
       ["/p/cypress/component/a.cy.ts", "/p/cypress/component/b.cy.js"]
     else if p = "/p/src" then ["/p/src/c.cy.ts"]
     else []⟩

/-! ### Helper lemmas -/

theorem lexLt_trans : ∀ u v w : List Nat,
    lexLt u v = true → lexLt v w = true → lexLt u w = true
  | [], [], _, h₁, _ => by simp [lexLt] at h₁
  | [], _ :: _, [], _, h₂ => by simp [lexLt] at h₂
  | [], _ :: _, _ :: _, _, _ => rfl
  | _ :: _, [], _, h₁, _ => by simp [lexLt] at h₁
  | _ :: _, _ :: _, [], _, h₂ => by simp [lexLt] at h₂
  | a :: as, b :: bs, c :: cs, h₁, h₂ => by
    simp only [lexLt] at h₁ h₂ ⊢
    rcases Nat.lt_trichotomy a b with hab | hab | hab
    · rcases Nat.lt_trichotomy b c with hbc | hbc | hbc
      · rw [if_pos (Nat.lt_trans hab hbc)]
      · subst hbc
        rw [if_pos hab]
      · rw [if_neg (Nat.lt_asymm hbc), if_pos hbc] at h₂
        exact absurd h₂ (by simp)
    · subst hab
      rw [if_neg (Nat.lt_irrefl a), if_neg (Nat.lt_irrefl a)] at h₁
      rcases Nat.lt_trichotomy a c with hac | hac | hac
      · rw [if_pos hac]
      · subst hac
        rw [if_neg (Nat.lt_irrefl a), if_neg (Nat.lt_irrefl a)] at h₂ ⊢
        exact lexLt_trans as bs cs h₁ h₂
      · rw [if_neg (Nat.lt_asymm hac), if_pos hac] at h₂
        exact absurd h₂ (by simp)
    · rw [if_neg (Nat.lt_asymm hab), if_pos hab] at h₁
      exact absurd h₁ (by simp)

theorem eq_of_lexLt_false : ∀ u v : List Nat,
    lexLt u v = false → lexLt v u = false → u = v
  | [], [], _, _ => rfl
  | [], _ :: _, h₁, _ => by simp [lexLt] at h₁
  | _ :: _, [], _, h₂ => by simp [lexLt] at h₂
  | a :: as, b :: bs, h₁, h₂ => by
    simp only [lexLt] at h₁ h₂
    rcases Nat.lt_trichotomy a b with hab | hab | hab
    · rw [if_pos hab] at h₁
      exact absurd h₁ (by simp)
    · subst hab
      rw [if_neg (Nat.lt_irrefl a), if_neg (Nat.lt_irrefl a)] at h₁ h₂
      rw [eq_of_lexLt_false as bs h₁ h₂]
    · rw [if_pos hab] at h₂
      exact absurd h₂ (by simp)

theorem partsLe_total : ∀ a b : List (List Char),
    partsLe a b = true ∨ partsLe b a = true
  | [], _ => Or.inl rfl
  | _ :: _, [] => Or.inr rfl
  | a :: as, b :: bs => by
    cases hab : partLt a b
    · cases hba : partLt b a
      · rcases partsLe_total as bs with ih | ih
        · exact Or.inl (by simp [partsLe, hab, hba, ih])
        · exact Or.inr (by simp [partsLe, hab, hba, ih])
      · exact Or.inr (by simp [partsLe, hba])
    · exact Or.inl (by simp [partsLe, hab])

theorem partsLe_trans : ∀ a b c : List (List Char),
    partsLe a b = true → partsLe b c = true → partsLe a c = true
  | [], _, _, _, _ => rfl
  | _ :: _, [], _, h₁, _ => by simp [partsLe] at h₁
  | _ :: _, _ :: _, [], _, h₂ => by simp [partsLe] at h₂
  | a :: as, b :: bs, c :: cs, h₁, h₂ => by
    simp only [partsLe] at h₁ h₂ ⊢
    cases hab : partLt a b with
    | true =>
      cases hbc : partLt b c with
      | true =>
        have hac : partLt a c = true :=
          lexLt_trans (partCodes a) (partCodes b) (partCodes c) hab hbc
        simp [hac]
      | false =>
        cases hcb : partLt c b with
        | true => simp [hbc, hcb] at h₂
        | false =>
          have hbc' : partCodes b = partCodes c := eq_of_lexLt_false _ _ hbc hcb
          have hac : partLt a c = true := by
            show lexLt (partCodes a) (partCodes c) = true
            rw [← hbc']
            exact hab
          simp [hac]
    | false =>
      cases hba : partLt b a with
      | true => simp [hab, hba] at h₁
      | false =>
        have hab' : partCodes a = partCodes b := eq_of_lexLt_false _ _ hab hba
        simp only [hab, hba, Bool.false_eq_true, if_false] at h₁
        cases hbc : partLt b c with
        | true =>
          have hac : partLt a c = true := by
            show lexLt (partCodes a) (partCodes c) = true
            rw [hab']
            exact hbc
          simp [hac]
        | false =>
          cases hcb : partLt c b with
          | true => simp [hbc, hcb] at h₂
          | false =>
            have hbc' : partCodes b = partCodes c := eq_of_lexLt_false _ _ hbc hcb
            simp only [hbc, hcb, Bool.false_eq_true, if_false] at h₂
            have hac : partLt a c = false := by
              show lexLt (partCodes a) (partCodes c) = false
              rw [← hbc']
              exact hab
            have hca : partLt c a = false := by
              show lexLt (partCodes c) (partCodes a) = false
              rw [← hbc']
              exact hba
            simp only [hac, hca, Bool.false_eq_true, if_false]
            exact partsLe_trans as bs cs h₁ h₂

instance : IsTotal String pathLeP := ⟨fun _ _ => partsLe_total _ _⟩

instance : IsTrans String pathLeP := ⟨fun _ _ _ h₁ h₂ => partsLe_trans _ _ _ h₁ h₂⟩

theorem suffix_of_suffix_le {α : Type} {l₁ l₂ l : List α}
    (h₁ : l₁ <:+ l) (h₂ : l₂ <:+ l) (hle : l₁.length ≤ l₂.length) :
    l₁ <:+ l₂ := by
  obtain ⟨t₁, e₁⟩ := h₁
  obtain ⟨t₂, e₂⟩ := h₂
  have e3 : t₂ ++ l₂ = t₁ ++ l₁ := by rw [e₁, e₂]
  have hlen : t₂.length ≤ t₁.length := by
    have h4 := congrArg List.length e3
    simp only [List.length_append] at h4
    omega
  have e4 : t₂ = t₁.take t₂.length := by
    have h5 := congrArg (List.take t₂.length) e3
    rw [List.take_append_eq_append_take, List.take_append_eq_append_take] at h5
    simpa [Nat.sub_eq_zero_of_le hlen] using h5
  have e5 : t₂ ++ t₁.drop t₂.length = t₁ := by
    nth_rewrite 1 [e4]
    exact List.take_append_drop _ _
  refine ⟨t₁.drop t₂.length, ?_⟩
  have e6 : t₂ ++ (t₁.drop t₂.length ++ l₁) = t₂ ++ l₂ := by
    rw [← List.append_assoc, e5, e3]
  exact List.append_cancel_left e6

theorem matchesExt_false_of_matchesExt (e₁ e₂ x : String)
    (hs₁ : ¬ (String.append ".cy." e₁).data <:+ (String.append ".cy." e₂).data)
    (hs₂ : ¬ (String.append ".cy." e₂).data <:+ (String.append ".cy." e₁).data)
    (h₁ : matchesExt e₁ x = true) (h₂ : matchesExt e₂ x = true) : False := by
  rw [matchesExt] at h₁ h₂
  replace h₁ := List.isSuffixOf_iff_suffix.mp h₁
  replace h₂ := List.isSuffixOf_iff_suffix.mp h₂
  rcases Nat.le_total (String.append ".cy." e₁).data.length
      (String.append ".cy." e₂).data.length with hle | hle
  · exact hs₁ (suffix_of_suffix_le h₁ h₂ hle)
  · exact hs₂ (suffix_of_suffix_le h₂ h₁ hle)

theorem filter_matchesExt_disjoint (e₁ e₂ : String) (l : List String)
    (hs₁ : ¬ (String.append ".cy." e₁).data <:+ (String.append ".cy." e₂).data)
    (hs₂ : ¬ (String.append ".cy." e₂).data <:+ (String.append ".cy." e₁).data) :
    (l.filter (matchesExt e₁)).Disjoint (l.filter (matchesExt e₂)) := by
  intro x hx₁ hx₂
  rw [List.mem_filter] at hx₁ hx₂
  exact matchesExt_false_of_matchesExt e₁ e₂ x hs₁ hs₂ hx₁.2 hx₂.2

theorem globFiles_nodup (fs : FS) (folder : String)
    (h : (fs.treeFiles folder).Nodup) : (globFiles fs folder).Nodup := by
  unfold globFiles
  refine List.Nodup.append (List.Nodup.append (List.Nodup.append ?_ ?_ ?_) ?_ ?_) ?_ ?_
  · exact h.filter _
  · exact h.filter _
  · exact filter_matchesExt_disjoint "ts" "js" _ (by decide) (by decide)
  · exact h.filter _
  · rw [List.disjoint_append_left]
    exact ⟨filter_matchesExt_disjoint "ts" "tsx" _ (by decide) (by decide),
      filter_matchesExt_disjoint "js" "tsx" _ (by decide) (by decide)⟩
  · exact h.filter _
  · rw [List.disjoint_append_left, List.disjoint_append_left]
    exact ⟨⟨filter_matchesExt_disjoint "ts" "jsx" _ (by decide) (by decide),
      filter_matchesExt_disjoint "js" "jsx" _ (by decide) (by decide)⟩,
      filter_matchesExt_disjoint "tsx" "jsx" _ (by decide) (by decide)⟩

theorem sortStrings_sorted (l : List String) : (sortStrings l).Sorted pathLeP :=
  List.sorted_insertionSort pathLeP l

theorem sortStrings_nodup (l : List String) (h : l.Nodup) : (sortStrings l).Nodup :=
  (List.perm_insertionSort pathLeP l).nodup_iff.mpr h

theorem joinSp_cons (a : String) (l : List String) (h : l ≠ []) :
    joinSp (a :: l) = a ++ " " ++ joinSp l := by
  match l with
  | [] => exact absurd rfl h
  | b :: l' => rfl

theorem joinSp_append_tokens (l : List String) (h : l ≠ []) (m : List String)
    (hm : m ≠ []) : joinSp (l ++ m) = joinSp l ++ " " ++ joinSp m := by
  induction l with
  | nil => exact absurd rfl h
  | cons a l ih =>
    match l with
    | [] => simp [joinSp_cons a m hm, joinSp]
    | b :: l' =>
      have hbm : b :: l' ++ m ≠ [] := by simp
      rw [List.cons_append, joinSp_cons a (b :: l' ++ m) hbm,
        joinSp_cons a (b :: l') (by simp), ih (by simp)]
      simp [String.append_assoc]

/-! ### Claims -/

/-- Claim C3 (confirmed): with no config path given and no config file found
by the upward search, `load_config` returns the built-in defaults — command
`npm`, run prefix `run`, the single default `test` category — and on that
default `get_test_command "component"` yields `["npm", "run",
"coverage:component"]`. -/
theorem c3_load_defaults :
    load_config none =
      .ok { script_runner :=
              { command := "npm", runPfx := "run", scripts := defaultScripts } } ∧
    (load_config none).map (fun c => c.script_runner.get_test_command "component")
      = .ok (.ok ["npm", "run", "coverage:component"]) :=
  ⟨rfl, rfl⟩

/-- Claim C10 (confirmed): serialising any `Config` with `to_dict` and
parsing it back with `from_dict` reconstructs the same configuration
(`to_dict` never emits the `package_manager` shorthand, so the direct-field
branch of `from_dict` applies and every field round-trips). -/
theorem c10_roundtrip (c : Config) : Config.from_dict c.to_dict = .ok c := rfl

/-- Claim C9 (confirmed): when the `test` command has a non-empty `test`
script table and the interactive type selection is cancelled (the selector
yields `none`), the command raises `SystemExit(0)`: the outcome is exit
code 0, which is not the runner-launch outcome, so no child process is
spawned and no default choice is substituted. -/
theorem c9_cancel_exit_zero (config : Config) (fs : FS)
    (dry_run list_only : Bool) (ts : List (String × String))
    (h1 : List.lookup "test" config.script_runner.scripts = some ts)
    (h2 : ts ≠ []) :
    testCommand config none dry_run list_only (fun _ => none) fs = .exitWith 0 := by
  have h2' : ts.isEmpty = false := by simp [List.isEmpty_iff, h2]
  simp [testCommand, h1, h2']

/-- Witness for C9 at the default configuration and an empty filesystem. -/
theorem c9_witness :
    testCommand {} none false false (fun _ => none)
      ⟨none, fun _ => false, fun _ => []⟩ = .exitWith 0 :=
  c9_cancel_exit_zero {} ⟨none, fun _ => false, fun _ => []⟩ false false
    [("component", "coverage:component"), ("e2e", "coverage:e2e")] rfl (by decide)

/-- Claim C4 (confirmed): for a category outside `{e2e, component}`,
`find_test_folder` fails with an unknown-test-type error before consulting
the filesystem, and for a category absent from the configured scripts,
`get_command` fails with an unknown-category error — neither returns a
partial result. -/
theorem c4_unknown_category (fs : FS) (t : String) (c : ScriptRunnerConfig)
    (cat key : String) (h1 : t ≠ "e2e") (h2 : t ≠ "component")
    (h3 : List.lookup cat c.scripts = none) :
    (∃ msg, find_test_folder fs t = .error msg) ∧
    (∃ msg, c.get_command cat key = .error msg) := by
  have e1 : (t == "e2e") = false := beq_eq_false_iff_ne.mpr h1
  have e2 : (t == "component") = false := beq_eq_false_iff_ne.mpr h2
  refine ⟨⟨"Unknown test type: " ++ t, ?_⟩, ⟨"Unknown category: " ++ cat, ?_⟩⟩
  · simp [find_test_folder, TEST_FOLDERS, List.lookup, e1, e2]
  · simp [ScriptRunnerConfig.get_command, h3]

/-- Witness for C4: the category `unit` is rejected by discovery, and the
category `lint` is rejected by command lookup on the default config. -/
theorem c4_witness :
    (∃ msg, find_test_folder ⟨none, fun _ => false, fun _ => []⟩ "unit" = .error msg) ∧
    (∃ msg, ScriptRunnerConfig.get_command {} "lint" "x" = .error msg) :=
  c4_unknown_category ⟨none, fun _ => false, fun _ => []⟩ "unit" {} "lint" "x"
    (by decide) (by decide) rfl

/-- Claim C1 counterexample: a config whose `test` category maps `e2e` to
the empty script name satisfies the claim's containment hypotheses, yet
`get_command` raises (Python's `if not script:` treats the empty string as
missing) instead of returning `[command, runPrefix, scriptName]`. -/
theorem c1_counterexample :
    List.lookup "test" (ScriptRunnerConfig.mk "npm" "run" [("test", [("e2e", "")])]).scripts
        = some [("e2e", "")] ∧
    List.lookup "e2e" [("e2e", "")] = some "" ∧
    (ScriptRunnerConfig.mk "npm" "run" [("test", [("e2e", "")])]).get_command "test" "e2e"
        = .error "Unknown script e2e" ∧
    (Except.error "Unknown script e2e" : Except String (List String)) ≠ .ok ["npm", "run", ""] :=
  ⟨rfl, rfl, rfl, fun h => Except.noConfusion h⟩

/-- Claim C1 (amended): for every config whose scripts map contains the
category and whose category map sends the key to a NONEMPTY script name,
`get_command` returns `[command, runPfx, script]` with the run prefix
omitted when it is empty; in particular the yarn preset yields
`get_test_command "e2e" = ["yarn", "coverage:e2e"]` with no prefix token. -/
theorem c1_get_command_amended (c : ScriptRunnerConfig)
    (category key script : String) (cs : List (String × String))
    (h1 : List.lookup category c.scripts = some cs)
    (h2 : List.lookup key cs = some script) (h3 : script ≠ "") :
    c.get_command category key =
      .ok (if c.runPfx = "" then [c.command, script]
           else [c.command, c.runPfx, script]) ∧
    (ScriptRunnerConfig.for_package_manager "yarn" none).map
        (fun cfg => cfg.get_test_command "e2e") = .ok (.ok ["yarn", "coverage:e2e"]) := by
  refine ⟨?_, rfl⟩
  simp [ScriptRunnerConfig.get_command, h1, h2, h3, apply_ite]

/-- Witness for C1 on the default npm config and the default scripts. -/
theorem c1_witness :
    ScriptRunnerConfig.get_command {} "test" "component"
        = .ok ["npm", "run", "coverage:component"] ∧
    (ScriptRunnerConfig.for_package_manager "yarn" none).map
        (fun cfg => cfg.get_test_command "e2e") = .ok (.ok ["yarn", "coverage:e2e"]) := by
  have h := c1_get_command_amended {} "test" "component" "coverage:component"
    [("component", "coverage:component"), ("e2e", "coverage:e2e")] rfl rfl (by decide)
  simpa using h

/-- Claim C2 counterexample: at base command `["npm", "run",
"coverage:e2e"]` and file `a.cy.ts`, the dry-run printout is not
token-identical to the executed argv — every token here is space-free, so
token identity would force the printed string to equal the space-join of
the argv, but the dry run prints a fixed quoted `"<test_file>"` placeholder
instead of the file path. -/
theorem c2_counterexample :
    dryRunCommandString ["npm", "run", "coverage:e2e"] ≠
      joinSp (buildCommand ["npm", "run", "coverage:e2e"] "a.cy.ts") := by decide

/-- Claim C2 (amended): the executed command is always
`baseCmd ++ ["--", "--", "--spec", file]`, and the dry-run printout equals
the string the runner displays for an actual execution with the literal
placeholder `<test_file>` in place of the file path — identical tokens up
to the final spec path, which dry-run shows as a quoted placeholder. -/
theorem c2_build_command_amended (base_cmd : List String) (test_file : String)
    (h : base_cmd ≠ []) :
    buildCommand base_cmd test_file = base_cmd ++ ["--", "--", "--spec", test_file] ∧
    dryRunCommandString base_cmd
      = runTestCommandString (buildCommand base_cmd "<test_file>") := by
  refine ⟨rfl, ?_⟩
  unfold runTestCommandString buildCommand dryRunCommandString
  have e0 : (["--", "--", "--spec", "<test_file>"] : List String)
      = ["--", "--", "--spec"] ++ ["<test_file>"] := rfl
  have e1 : (base_cmd ++ ["--", "--", "--spec", "<test_file>"]).dropLast
      = base_cmd ++ ["--", "--", "--spec"] := by
    rw [e0, ← List.append_assoc, List.dropLast_concat]
  have e2 : (base_cmd ++ ["--", "--", "--spec", "<test_file>"]).getLastD ""
      = "<test_file>" := by
    rw [e0, ← List.append_assoc, List.getLastD_concat]
  rw [e1, e2, joinSp_append_tokens base_cmd h ["--", "--", "--spec"] (by decide)]
  simp only [String.append_assoc]
  congr 1

/-- Witness for C2 at the yarn-style base command and file `a.cy.ts`. -/
theorem c2_witness :
    buildCommand ["yarn", "coverage:e2e"] "a.cy.ts"
        = ["yarn", "coverage:e2e"] ++ ["--", "--", "--spec", "a.cy.ts"] ∧
    dryRunCommandString ["yarn", "coverage:e2e"]
        = runTestCommandString (buildCommand ["yarn", "coverage:e2e"] "<test_file>") :=
  c2_build_command_amended ["yarn", "coverage:e2e"] "a.cy.ts" (by decide)

/-- Claim C7 counterexample: after a nonzero exit code (2) the runner
neither prompts whether to continue nor aborts with that code — it reports
the failure and returns to awaiting another selection (`awaiting (failed
…)` is a different constructor from both `askContinue` and `exited`). -/
theorem c7_counterexample :
    runnerStep (.running "b.cy.ts") (.processExited 2)
        = .awaiting (.failed "b.cy.ts") ∧
    RunnerPhase.awaiting (.failed "b.cy.ts") ≠ .askContinue 2 ∧
    RunnerPhase.awaiting (.failed "b.cy.ts") ≠ .exited 2 := by decide

/-- Claim C7 (amended): there is no multi-file batch run; each run handles
one selected file. After a nonzero exit code the runner reports the failure
in the status line (so the failure is not silent) and returns to awaiting
another selection; it never propagates the child's exit code — the app
leaves only through the quit action, with exit code 0. -/
theorem c7_failure_amended (f : String) (rc : Int) (h : rc ≠ 0) :
    runnerStep (.running f) (.processExited rc) = .awaiting (.failed f) ∧
    runnerStep (.awaiting (.failed f)) .quit = .exited 0 := by
  exact ⟨by simp [runnerStep, h], rfl⟩

/-- Witness for C7 at file `a.cy.ts` and exit code 2. -/
theorem c7_witness :
    runnerStep (.running "a.cy.ts") (.processExited 2) = .awaiting (.failed "a.cy.ts") ∧
    runnerStep (.awaiting (.failed "a.cy.ts")) .quit = .exited 0 :=
  c7_failure_amended "a.cy.ts" 2 (by decide)

/-- Claim C8 counterexample: the `test` command's click declarations carry
no `--all` and no `-a` flag. -/
theorem c8_counterexample :
    "--all" ∉ testCommandOptions.flatten ∧ "-a" ∉ testCommandOptions.flatten := by
  decide

/-- Claim C5 counterexample: with `a.b.cy.ts` beside a subdirectory `a/`
holding `x.cy.ts`, `sorted()` on `Path` values puts `a/x.cy.ts` first
(part-wise, `"a" < "a.b.cy.ts"`), but in plain codepoint order of the full
path strings `a.b.cy.ts` comes first (`.` is 0x2E, `/` is 0x2F) — so the
returned list is not sorted in the claimed full-path-string order. -/
theorem c5_counterexample :
    list_test_files fsNested "e2e"
        = .ok ["/r/cypress/e2e/a/x.cy.ts", "/r/cypress/e2e/a.b.cy.ts"] ∧
    strLe "/r/cypress/e2e/a/x.cy.ts" "/r/cypress/e2e/a.b.cy.ts" = false ∧
    ¬ (["/r/cypress/e2e/a/x.cy.ts", "/r/cypress/e2e/a.b.cy.ts"] :
        List String).Sorted strLeP :=
  ⟨rfl, by decide, by decide⟩

/-- Claim C5 (amended): whatever `list_test_files` returns successfully is
sorted ascending in the order `sorted()` actually applies to `Path` values
(`pathLeP`: lexicographic over the path's slash-separated components, each
component compared by codepoint — still deterministic and
locale-independent, but not full-path-string codepoint order once
subdirectories nest), and — given that each directory scan lists distinct
paths — contains no duplicates across the four scanned extensions (the
suffix patterns `.cy.ts`, `.cy.js`, `.cy.tsx`, `.cy.jsx` are pairwise
exclusive). -/
theorem c5_sorted_nodup (fs : FS) (test_type : String) (l : List String)
    (hn : ∀ p, (fs.treeFiles p).Nodup)
    (h : list_test_files fs test_type = .ok l) :
    l.Sorted pathLeP ∧ l.Nodup := by
  cases hf : find_test_folder fs test_type with
  | error e => simp [list_test_files, hf] at h
  | ok o =>
    cases o with
    | none =>
      simp [list_test_files, hf] at h
      subst h
      exact ⟨List.sorted_nil, List.nodup_nil⟩
    | some folder =>
      simp [list_test_files, hf] at h
      subst h
      exact ⟨sortStrings_sorted _, sortStrings_nodup _ (globFiles_nodup fs folder (hn folder))⟩

/-- Witness for C5 on a sample scan that lists two files unsorted. -/
theorem c5_witness :
    (["/r/cypress/e2e/a.cy.js", "/r/cypress/e2e/b.cy.ts"] : List String).Sorted pathLeP ∧
    (["/r/cypress/e2e/a.cy.js", "/r/cypress/e2e/b.cy.ts"] : List String).Nodup :=
  c5_sorted_nodup fsSample "e2e" _
    (fun _ =>
      (by decide : (["/r/cypress/e2e/b.cy.ts", "/r/cypress/e2e/a.cy.js"] : List String).Nodup))
    rfl

/-- Claim C6 (confirmed): for `component` the effective list built by
`get_test_files` is exactly the Cypress-folder list followed by the
src-folder list, each group keeping its own order; for `e2e` it is the
Cypress-folder list alone; and on the spec's scenario filesystem the
component discovery yields `[a.cy.ts, b.cy.js, c.cy.ts]` in grouped
order. -/
theorem c6_aggregation (fs : FS) (l : List String)
    (h : list_test_files fs "component" = .ok l) :
    get_test_files fs "component" = .ok (l ++ list_src_test_files fs) ∧
    get_test_files fs "e2e" = list_test_files fs "e2e" ∧
    get_test_files fsScenario "component" =
      .ok ["/p/cypress/component/a.cy.ts", "/p/cypress/component/b.cy.js",
           "/p/src/c.cy.ts"] := by
  refine ⟨by simp [get_test_files, h], ?_, rfl⟩
  unfold get_test_files
  cases list_test_files fs "e2e" <;> simp

/-- Witness for C6 on the scenario filesystem. -/
theorem c6_witness :
    get_test_files fsScenario "component" =
      .ok (["/p/cypress/component/a.cy.ts", "/p/cypress/component/b.cy.js"]
            ++ list_src_test_files fsScenario) ∧
    get_test_files fsScenario "e2e" = list_test_files fsScenario "e2e" ∧
    get_test_files fsScenario "component" =
      .ok ["/p/cypress/component/a.cy.ts", "/p/cypress/component/b.cy.js",
           "/p/src/c.cy.ts"] :=
  c6_aggregation fsScenario _ rfl

/-- Claim C8 (amended): the `test` command declares exactly the flags
`--type` (`-t`), `--dry-run` and `--list-only` (`-l`); there is no `--all`
(`-a`) flag.  There is also no selection step to skip at the CLI layer: whenever
the command launches the runner app, the app receives every discovered
test file for the chosen type together with that type's base command. -/
theorem c8_flags_amended (config : Config) (cli_type : Option String)
    (dry_run list_only : Bool) (selector : List String → Option String)
    (fs : FS) (files base_cmd : List String)
    (h : testCommand config cli_type dry_run list_only selector fs
          = .launchedRunner files base_cmd) :
    "--all" ∉ testCommandOptions.flatten ∧ "-a" ∉ testCommandOptions.flatten ∧
    ∃ test_type, get_test_files fs test_type = .ok files ∧
      config.script_runner.get_test_command test_type = .ok base_cmd := by
  refine ⟨by decide, by decide, ?_⟩
  simp only [testCommand] at h
  split at h
  · cases h
  · split at h
    · cases h
    · rename_i test_type hsel
      split at h
      · cases h
      · split at h
        · cases h
        · rename_i test_files hfiles
          split at h
          · cases h
          · split at h
            · cases h
            · split at h
              · cases h
              · rename_i base hbase
                split at h
                · cases h
                · cases h
                  exact ⟨test_type, hfiles, hbase⟩

/-- Witness for C8: with `--type e2e` on the sample project the runner app
is launched with every discovered file and the npm base command. -/
theorem c8_witness :
    "--all" ∉ testCommandOptions.flatten ∧ "-a" ∉ testCommandOptions.flatten ∧
    ∃ test_type, get_test_files fsSample test_type
          = .ok ["/r/cypress/e2e/a.cy.js", "/r/cypress/e2e/b.cy.ts"] ∧
      ScriptRunnerConfig.get_test_command {} test_type
          = .ok ["npm", "run", "coverage:e2e"] :=
  c8_flags_amended {} (some "e2e") false false (fun _ => none) fsSample _ _ rfl
